import Mathlib

/-!
Shallow embedding of the Harvest-Moon-DS portrait reconstructor
(`src/reconstruct_FINAL.py`): palette decoding, 4bpp tile unpacking,
OAM attribute parsing, custom OAM document parsing, sprite rendering and
portrait compositing, together with theorems settling the spec claims.

Byte buffers are `List ℕ` (each entry one byte), machine words are `ℕ`
with explicit masking, and screen coordinates are `ℤ`.
-/

namespace HMDS

/-- An 8-bit RGB color, as the Python tuple `(r8, g8, b8)`. -/
abbrev Color := ℕ × ℕ × ℕ

/-- An RGBA pixel, as the Python tuple `(r, g, b, a)`. -/
abbrev RGBA := ℕ × ℕ × ℕ × ℕ

/-- 5-bit → 8-bit channel conversion, `int((c / 31.0) * 255)` from
`load_ds_palette`.  The source evaluates in IEEE double arithmetic; on the
whole domain of interest (`c ≤ 31`) the double computation is exact enough
that truncation agrees with exact rational truncation (the exact value
`c*255/31` is at least `1/31` away from the next integer whenever it is not
itself an integer, far beyond the `≈ 6e-14` double rounding error), so the
embedding uses exact rationals. -/
def conv5to8 (c : ℕ) : ℕ := (⌊((c : ℚ) / 31) * 255⌋).toNat

/-- `load_ds_palette`, on the raw bytes of the palette file.  Mirrors
`for i in range(0, len(data), 2): struct.unpack('<H', data[i:i+2])`:
a trailing odd byte makes the final 1-byte `struct.unpack` raise
(`struct.error`), modelled as `none`. -/
def load_ds_palette : List ℕ → Option (List Color)
  | [] => some []
  | [_] => none
  | b0 :: b1 :: rest =>
    let color16 := b0 + 256 * b1
    let r := color16 &&& 0x001F
    let g := (color16 &&& 0x03E0) >>> 5
    let b := (color16 &&& 0x7C00) >>> 10
    (load_ds_palette rest).map fun tl => (conv5to8 r, conv5to8 g, conv5to8 b) :: tl

/-- The flat 64-entry pixel list built by the first loop of
`decode_4bpp_tile`: for each byte, low nibble then high nibble. -/
def tilePixels (bytes : List ℕ) : List ℕ :=
  bytes.flatMap fun b => [b &&& 0x0F, (b >>> 4) &&& 0x0F]

/-- `decode_4bpp_tile`: arrange the nibble list into an 8×8 grid,
`tile[y][x] = pixels[y*8+x]`. -/
def decode_4bpp_tile (bytes : List ℕ) : List (List ℕ) :=
  (List.range 8).map fun y => (List.range 8).map fun x =>
    (tilePixels bytes).getD (y * 8 + x) 0

/-- `wrap_ds_coordinate`: recover signed screen coordinates from the raw
unsigned 9-bit x / 8-bit y register values. -/
def wrap_ds_coordinate (x y : ℤ) : ℤ × ℤ :=
  (if x ≥ 256 then x - 512 else x, if y ≥ 192 then y - 256 else y)

/-- One decoded OAM object record (the dictionary built by
`parse_oam_attrs`). -/
structure SpriteObject where
  y : ℤ
  rot_scaling : ℕ
  double_size : ℕ
  obj_disable : ℕ
  obj_mode : ℕ
  mosaic : ℕ
  colors_palettes : ℕ
  shape : ℕ
  x : ℤ
  rot_scaling_param : ℕ
  h_flip : ℕ
  v_flip : ℕ
  size : ℕ
  tile_number : ℕ
  priority : ℕ
  palette_number : ℕ
  width : ℕ
  height : ℕ
  deriving DecidableEq, Repr

/-- The `SIZE_TABLE` lookup of `parse_oam_attrs`.  Both arguments are
produced by 2-bit masks, so the catch-all row is unreachable. -/
def sizeTable : ℕ → ℕ → ℕ × ℕ
  | 0, 0 => (8, 8)
  | 0, 1 => (16, 16)
  | 0, 2 => (32, 32)
  | 0, 3 => (64, 64)
  | 1, 0 => (16, 8)
  | 1, 1 => (32, 8)
  | 1, 2 => (32, 16)
  | 1, 3 => (64, 32)
  | 2, 0 => (8, 16)
  | 2, 1 => (8, 32)
  | 2, 2 => (16, 32)
  | 2, 3 => (32, 64)
  | 3, _ => (8, 8)
  | _, _ => (0, 0)

/-- `parse_oam_attrs`: decode the three 16-bit attribute words into a
`SpriteObject`. -/
def parse_oam_attrs (attr0 attr1 attr2 : ℕ) : SpriteObject :=
  let y_coord := attr0 &&& 0xFF
  let rot_scaling := (attr0 >>> 8) &&& 0x1
  let double_size := if rot_scaling ≠ 0 then (attr0 >>> 9) &&& 0x1 else 0
  let obj_disable := if rot_scaling ≠ 0 then 0 else (attr0 >>> 9) &&& 0x1
  let obj_mode := (attr0 >>> 10) &&& 0x3
  let mosaic := (attr0 >>> 12) &&& 0x1
  let colors_palettes := (attr0 >>> 13) &&& 0x1
  let obj_shape := (attr0 >>> 14) &&& 0x3
  let x_coord := attr1 &&& 0x1FF
  let rot_scaling_param := if rot_scaling ≠ 0 then (attr1 >>> 9) &&& 0x1F else 0
  let h_flip := if rot_scaling ≠ 0 then 0 else (attr1 >>> 12) &&& 0x1
  let v_flip := if rot_scaling ≠ 0 then 0 else (attr1 >>> 13) &&& 0x1
  let obj_size := (attr1 >>> 14) &&& 0x3
  let tile_index := attr2 &&& 0x3FF
  let priority := (attr2 >>> 10) &&& 0x3
  let palette_num := (attr2 >>> 12) &&& 0xF
  let wh := sizeTable obj_shape obj_size
  let xy := wrap_ds_coordinate (x_coord : ℤ) (y_coord : ℤ)
  { y := xy.2
    rot_scaling := rot_scaling
    double_size := double_size
    obj_disable := obj_disable
    obj_mode := obj_mode
    mosaic := mosaic
    colors_palettes := colors_palettes
    shape := obj_shape
    x := xy.1
    rot_scaling_param := rot_scaling_param
    h_flip := h_flip
    v_flip := v_flip
    size := obj_size
    tile_number := tile_index
    priority := priority
    palette_number := palette_num
    width := wh.1
    height := wh.2 }

/-! ## Document parsing (`parse_custom_oam_format`) -/

/-- The header dictionary of `parse_custom_oam_format`. -/
structure OamHeader where
  total_size : ℕ
  byte_2_3 : ℕ
  multiplier : ℕ
  set2_offset_adjust : ℕ
  set1_count : ℕ
  deriving DecidableEq, Repr

/-- A `SpriteObject` together with the `obj['set']` and `obj['index']`
keys added by `parse_custom_oam_format`. -/
structure TaggedObject where
  obj : SpriteObject
  set : ℕ
  index : ℕ
  deriving DecidableEq, Repr

/-- `struct.unpack('<H', data[i:i+2])`: `none` when the 2-byte slice is
short (Python raises `struct.error`). -/
def read16 (data : List ℕ) (i : ℕ) : Option ℕ :=
  if i + 2 ≤ data.length then some (data.getD i 0 + 256 * data.getD (i + 1) 0)
  else none

/-- The record loop shared by Set 1 and Set 2 of `parse_custom_oam_format`:
read up to `count` 6-byte records starting at `offset`, stopping early when
fewer than 6 bytes remain; `i` is the running zero-based index. -/
def parseRecords (data : List ℕ) (setId : ℕ) : ℕ → ℕ → ℕ → List TaggedObject
  | 0, _, _ => []
  | count + 1, offset, i =>
    if offset + 6 > data.length then []
    else
      let attr0 := data.getD offset 0 + 256 * data.getD (offset + 1) 0
      let attr1 := data.getD (offset + 2) 0 + 256 * data.getD (offset + 3) 0
      let attr2 := data.getD (offset + 4) 0 + 256 * data.getD (offset + 5) 0
      ⟨parse_oam_attrs attr0 attr1 attr2, setId, i⟩ ::
        parseRecords data setId count (offset + 6) (i + 1)

/-- `parse_custom_oam_format`: 10-byte header, Set 1 records, then an
optional 16-bit Set-2 count followed by Set 2 records.  A header slice
shorter than 2 bytes makes `struct.unpack` raise, modelled as `none`. -/
def parse_custom_oam_format (data : List ℕ) :
    Option (OamHeader × List TaggedObject × List TaggedObject) := do
  let total_size ← read16 data 0
  let byte_2_3 ← read16 data 2
  let multiplier ← read16 data 4
  let set2_offset_adjust ← read16 data 6
  let set1_count ← read16 data 8
  let header : OamHeader := ⟨total_size, byte_2_3, multiplier, set2_offset_adjust, set1_count⟩
  let set1 := parseRecords data 1 set1_count 10 0
  let offset := 10 + 6 * set1.length
  let set2 :=
    if offset + 2 ≤ data.length then
      let set2_count := data.getD offset 0 + 256 * data.getD (offset + 1) 0
      parseRecords data 2 set2_count (offset + 2) 0
    else []
  some (header, set1, set2)

/-! ## Images as pixel functions

PIL images are embedded as a size plus a total pixel function; each
`putpixel` (and each masked pixel copied by `paste`) becomes one entry of a
write list applied left to right, preserving the source's write order. -/

/-- A pending `putpixel`: target coordinates and the RGBA value. -/
abbrev Write := (ℤ × ℤ) × RGBA

/-- An RGBA raster with explicit size.  `pix` is total; only the
rectangle `[0,w) × [0,h)` is meaningful. -/
structure Image where
  w : ℕ
  h : ℕ
  pix : ℤ → ℤ → RGBA

/-- `Image.new(mode, (w, h), bg)`. -/
def mkImage (w h : ℕ) (bg : RGBA) : Image := ⟨w, h, fun _ _ => bg⟩

/-- One `putpixel` as a pointwise function override. -/
def putAt (f : ℤ → ℤ → RGBA) (wr : Write) : ℤ → ℤ → RGBA :=
  fun x y => if x = wr.1.1 ∧ y = wr.1.2 then wr.2 else f x y

/-- Apply a sequence of `putpixel` writes in order. -/
def applyWrites (f : ℤ → ℤ → RGBA) (ws : List Write) : ℤ → ℤ → RGBA :=
  ws.foldl putAt f

/-- Whether a write targets the point `(x, y)`. -/
def targetsAt (x y : ℤ) (w : Write) : Bool := decide (x = w.1.1 ∧ y = w.1.2)

/-! ## Sprite rendering (`render_sprite`) -/

/-- The sprite background of `render_sprite`: opaque white when
`show_transparent` is set, fully transparent otherwise. -/
def spriteBg (show_transparent : Bool) : RGBA :=
  if show_transparent then (255, 255, 255, 255) else (0, 0, 0, 0)

/-- `color + (255,)`. -/
def withAlpha (c : Color) : RGBA := (c.1, c.2.1, c.2.2, 255)

/-- The flip applied once per whole sprite: reflect about `len - 1` when
the flag is set. -/
def flipCoord (flag : ℕ) (len : ℕ) (v : ℕ) : ℤ :=
  if flag ≠ 0 then (len : ℤ) - 1 - v else v

/-- The writes of the innermost loop body of `render_sprite` for one
pixel of one tile cell: skip palette index 0 (unless `show_transparent`)
and out-of-range palette indices, else write the color at full opacity at
the flip-adjusted position. -/
def pixelWrites (obj : SpriteObject) (palette : List Color)
    (show_transparent : Bool) (tile : List (List ℕ)) (ty tx py px : ℕ) :
    List Write :=
  let palette_idx := (tile.getD py []).getD px 0
  if ¬show_transparent ∧ palette_idx = 0 then []
  else if palette.length ≤ palette_idx then []
  else
    [((flipCoord obj.h_flip obj.width (tx * 8 + px),
       flipCoord obj.v_flip obj.height (ty * 8 + py)),
      withAlpha (palette.getD palette_idx (0, 0, 0)))]

/-- The writes of one destination tile cell of `render_sprite`.  The
running `tile_num` of the source equals `ty * tiles_wide + tx` because it
is incremented on skipped cells too.  A cell whose 32-byte span overruns
the tile buffer yields no writes. -/
def cellWrites (tile_data : List ℕ) (obj : SpriteObject) (palette : List Color)
    (tile_multiplier : ℕ) (show_transparent : Bool) (ty tx : ℕ) : List Write :=
  let tiles_wide := obj.width / 8
  let current_tile_idx := obj.tile_number * tile_multiplier + (ty * tiles_wide + tx)
  let tile_offset := current_tile_idx * 32
  if tile_offset + 32 > tile_data.length then []
  else
    let tile := decode_4bpp_tile ((tile_data.drop tile_offset).take 32)
    (List.range 8).flatMap fun py => (List.range 8).flatMap fun px =>
      pixelWrites obj palette show_transparent tile ty tx py px

/-- All writes of `render_sprite`, cells in row-major order. -/
def renderWrites (tile_data : List ℕ) (obj : SpriteObject) (palette : List Color)
    (tile_multiplier : ℕ) (show_transparent : Bool) : List Write :=
  (List.range (obj.height / 8)).flatMap fun ty =>
    (List.range (obj.width / 8)).flatMap fun tx =>
      cellWrites tile_data obj palette tile_multiplier show_transparent ty tx

/-- `render_sprite`: a `width × height` RGBA raster. -/
def render_sprite (tile_data : List ℕ) (obj : SpriteObject) (palette : List Color)
    (tile_multiplier : ℕ) (show_transparent : Bool) : Image :=
  ⟨obj.width, obj.height,
   applyWrites (fun _ _ => spriteBg show_transparent)
     (renderWrites tile_data obj palette tile_multiplier show_transparent)⟩

/-! ## Portrait compositing (`reconstruct_portrait`, core loop) -/

/-- `min` over a nonempty list, as Python's `min()` over the object
generator; the `[]` case is unreachable where used. -/
def listMinZ : List ℤ → ℤ
  | [] => 0
  | a :: t => t.foldl min a

/-- `max` over a nonempty list. -/
def listMaxZ : List ℤ → ℤ
  | [] => 0
  | a :: t => t.foldl max a

/-- `min(obj['x'] for obj in objects)`. -/
def minX (objs : List SpriteObject) : ℤ := listMinZ (objs.map (·.x))

/-- `max(obj['x'] + obj['width'] for obj in objects)`. -/
def maxX (objs : List SpriteObject) : ℤ :=
  listMaxZ (objs.map fun o => o.x + (o.width : ℤ))

/-- `min(obj['y'] for obj in objects)`. -/
def minY (objs : List SpriteObject) : ℤ := listMinZ (objs.map (·.y))

/-- `max(obj['y'] + obj['height'] for obj in objects)`. -/
def maxY (objs : List SpriteObject) : ℤ :=
  listMaxZ (objs.map fun o => o.y + (o.height : ℤ))

/-- The masked-paste writes of `canvas.paste(sprite, (ox, oy), sprite)`:
each sprite pixel whose alpha mask is opaque is copied to the offset
position; positions outside the canvas are cropped. -/
def pasteWrites (canvas sprite : Image) (ox oy : ℤ) : List Write :=
  (List.range sprite.h).flatMap fun y =>
    (List.range sprite.w).flatMap fun x =>
      let c := sprite.pix x y
      if c.2.2.2 = 255 ∧ 0 ≤ ox + x ∧ ox + x < (canvas.w : ℤ) ∧
          0 ≤ oy + y ∧ oy + y < (canvas.h : ℤ) then
        [((ox + (x : ℤ), oy + (y : ℤ)), c)]
      else []

/-- `canvas.paste(sprite, (ox, oy), sprite)`. -/
def paste (canvas sprite : Image) (ox oy : ℤ) : Image :=
  { canvas with pix := applyWrites canvas.pix (pasteWrites canvas sprite ox oy) }

/-- The palette selection of the compositing loop: `palette_number`,
clamped to palette 0 when out of range.  Note: on an *empty* palettes
list the source's `palettes[pal_idx]` raises `IndexError`, whereas this
`getD` yields `[]`; `reconstruct_portrait` is only ever called with the
two loaded palettes, and every concrete evaluation below uses a nonempty
palettes list, staying clear of that divergent input. -/
def selectPalette (palettes : List (List Color)) (obj : SpriteObject) : List Color :=
  palettes.getD (if palettes.length ≤ obj.palette_number then 0 else obj.palette_number) []

/-- One iteration of the compositing loop of `reconstruct_portrait`:
skip disabled objects, select the palette, render and paste. -/
def compositeStep (tile_data : List ℕ) (palettes : List (List Color))
    (tile_multiplier : ℕ) (show_transparent : Bool) (min_x min_y : ℤ)
    (canvas : Image) (obj : SpriteObject) : Image :=
  if obj.obj_disable ≠ 0 then canvas
  else
    let sprite := render_sprite tile_data obj (selectPalette palettes obj)
      tile_multiplier show_transparent
    paste canvas sprite (obj.x - min_x) (obj.y - min_y)

/-- The core of `reconstruct_portrait` after file loading and set
selection: bounding box over all objects, a transparent canvas, then the
objects composited in reverse order.  Python's `min()` raises `ValueError`
on an empty sequence, modelled as `none`. -/
def reconstruct_portrait (tile_data : List ℕ) (objs : List SpriteObject)
    (palettes : List (List Color)) (tile_multiplier : ℕ)
    (show_transparent : Bool) : Option Image :=
  match objs with
  | [] => none
  | o :: rest =>
    let min_x := minX (o :: rest)
    let max_x := maxX (o :: rest)
    let min_y := minY (o :: rest)
    let max_y := maxY (o :: rest)
    let canvas := mkImage (max_x - min_x).toNat (max_y - min_y).toNat (0, 0, 0, 0)
    some ((o :: rest).reverse.foldl
      (compositeStep tile_data palettes tile_multiplier show_transparent min_x min_y)
      canvas)

/-! ## Concrete fixtures used by witnesses and counterexamples -/

/-- A concrete OAM document: 10-byte header with `set1_count = 1`, one
6-byte record, then a zero Set-2 count. -/
def dataW6 : List ℕ := [20, 0, 0, 0, 4, 0, 0, 0, 1, 0] ++ [5, 0, 3, 0, 7, 0] ++ [0, 0]

/-- One 4bpp tile whose 64 pixels all carry palette index 1. -/
def tdW : List ℕ := List.replicate 32 0x11

/-- A two-color palette. -/
def palW : List Color := [(0, 0, 0), (10, 20, 30)]

/-- A one-palette palette list. -/
def palsW : List (List Color) := [palW]

/-- An enabled 8×8 square object at the origin, tile 0, palette 0. -/
def objW1a : SpriteObject :=
  { y := 0, rot_scaling := 0, double_size := 0, obj_disable := 0, obj_mode := 0,
    mosaic := 0, colors_palettes := 0, shape := 0, x := 0, rot_scaling_param := 0,
    h_flip := 0, v_flip := 0, size := 0, tile_number := 0, priority := 0,
    palette_number := 0, width := 8, height := 8 }

/-- A second enabled 8×8 object at the same position with a different
`priority`, overlapping `objW1a` everywhere. -/
def objW1b : SpriteObject := { objW1a with priority := 3 }

/-- A 16×8 (shape 1, size 0) object: two tile cells wide. -/
def objW7 : SpriteObject := { objW1a with shape := 1, width := 16, height := 8 }

/-- A disabled 8×8 object far from the origin, stretching the bounding
box without contributing pixels. -/
def objW9 : SpriteObject := { objW1a with obj_disable := 1, x := 100, y := 100 }

/-! ## Helper lemmas -/

theorem conv5to8_eq (c : ℕ) : conv5to8 c = c * 255 / 31 := by
  unfold conv5to8
  have h : ((c : ℚ) / 31) * 255 = ((c * 255 : ℕ) : ℚ) / ((31 : ℕ) : ℚ) := by
    push_cast; ring
  rw [h, Rat.floor_natCast_div_natCast, ← Int.natCast_div, Int.toNat_natCast]

theorem load_pal_parity (data : List ℕ) :
    (data.length % 2 = 0 → ∃ p, load_ds_palette data = some p ∧ p.length = data.length / 2) ∧
    (data.length % 2 = 1 → load_ds_palette data = none) := by
  induction data using load_ds_palette.induct with
  | case1 => simp [load_ds_palette]
  | case2 b => simp [load_ds_palette]
  | case3 b0 b1 rest ih =>
    constructor
    · intro h
      have h' : rest.length % 2 = 0 := by simp at h; omega
      obtain ⟨p, hp, hl⟩ := ih.1 h'
      rw [load_ds_palette, hp]
      exact ⟨_, rfl, by simp [hl]; omega⟩
    · intro h
      have h' : rest.length % 2 = 1 := by simp at h; omega
      rw [load_ds_palette, ih.2 h']; rfl

theorem tilePixels_lt (bytes : List ℕ) : ∀ v ∈ tilePixels bytes, v < 16 := by
  intro v hv
  simp only [tilePixels, List.mem_flatMap, List.mem_cons, List.mem_singleton] at hv
  obtain ⟨b, _, hv | hv | hv⟩ := hv
  · exact hv ▸ Nat.lt_succ_of_le (Nat.and_le_right)
  · exact hv ▸ Nat.lt_succ_of_le (Nat.and_le_right)
  · cases hv

theorem getD_map_range {α : Type} (f : ℕ → α) (n y : ℕ) (hy : y < n) (d : α) :
    ((List.range n).map f).getD y d = f y := by
  simp [List.getD, List.getElem?_map, List.getElem?_range, hy]

theorem parseRecords_length (data : List ℕ) (setId : ℕ) :
    ∀ (count offset i : ℕ),
      (parseRecords data setId count offset i).length =
        min count ((data.length - offset) / 6) := by
  intro count
  induction count with
  | zero => intro offset i; simp [parseRecords]
  | succ n ih =>
    intro offset i
    rw [parseRecords.eq_2]
    split_ifs with h
    · simp only [List.length_nil]
      omega
    · simp only [List.length_cons, ih (offset + 6) (i + 1)]
      have h6 : 6 ≤ data.length - offset := by omega
      have hstep : (data.length - offset) / 6 = (data.length - offset - 6) / 6 + 1 := by
        rw [Nat.div_eq_sub_div (by norm_num) h6]
      have heq : data.length - (offset + 6) = data.length - offset - 6 := by omega
      rw [heq, hstep]
      omega

theorem parseRecords_tags (data : List ℕ) (setId : ℕ) :
    ∀ (count offset i j : ℕ) (t : TaggedObject),
      (parseRecords data setId count offset i)[j]? = some t →
      t.set = setId ∧ t.index = i + j := by
  intro count
  induction count with
  | zero => intro offset i j t ht; simp [parseRecords] at ht
  | succ n ih =>
    intro offset i j t ht
    rw [parseRecords.eq_2] at ht
    split_ifs at ht with h
    · simp at ht
    · match j with
      | 0 =>
        simp only [List.getElem?_cons_zero, Option.some_inj] at ht
        exact ⟨by rw [← ht], by rw [← ht]; rfl⟩
      | j' + 1 =>
        simp only [List.getElem?_cons_succ] at ht
        have hr := ih (offset + 6) (i + 1) j' t ht
        exact ⟨hr.1, by rw [hr.2]; omega⟩

theorem applyWrites_spec (ws : List Write) :
    ∀ (f : ℤ → ℤ → RGBA) (x y : ℤ),
      applyWrites f ws x y =
        (ws.filter (targetsAt x y)).foldl (fun _ w => w.2) (f x y) := by
  induction ws with
  | nil => intro f x y; rfl
  | cons w t ih =>
    intro f x y
    have hfold : applyWrites f (w :: t) = applyWrites (putAt f w) t := rfl
    by_cases h : x = w.1.1 ∧ y = w.1.2
    · have ht : targetsAt x y w = true := by simp [targetsAt, h]
      have hfil : (w :: t).filter (targetsAt x y) = w :: t.filter (targetsAt x y) := by
        rw [List.filter_cons, if_pos ht]
      rw [hfold, ih, hfil]
      simp only [List.foldl_cons]
      congr 1
      simp [putAt, h]
    · have ht : ¬(targetsAt x y w = true) := by simp [targetsAt]; tauto
      have hfil : (w :: t).filter (targetsAt x y) = t.filter (targetsAt x y) := by
        rw [List.filter_cons, if_neg ht]
      rw [hfold, ih, hfil]
      congr 1
      simp only [putAt]
      rw [if_neg h]

theorem applyWrites_of_filter_nil {ws : List Write} {x y : ℤ}
    (h : ws.filter (targetsAt x y) = []) (f : ℤ → ℤ → RGBA) :
    applyWrites f ws x y = f x y := by
  rw [applyWrites_spec, h]
  rfl

theorem applyWrites_of_filter_single {ws : List Write} {x y : ℤ} {w : Write}
    (h : ws.filter (targetsAt x y) = [w]) (f : ℤ → ℤ → RGBA) :
    applyWrites f ws x y = w.2 := by
  rw [applyWrites_spec, h]
  rfl

theorem flatMap_range_eq_single {α : Type} (g : ℕ → List α) :
    ∀ (n k : ℕ), k < n → (∀ i < n, i ≠ k → g i = []) →
      (List.range n).flatMap g = g k := by
  intro n
  induction n with
  | zero => intro k hk; omega
  | succ m ih =>
    intro k hk h
    rw [List.range_succ, List.flatMap_append]
    rcases Nat.lt_or_ge k m with hkm | hkm
    · rw [ih k hkm (fun i hi hik => h i (by omega) hik)]
      have hm : g m = [] := h m (by omega) (by omega)
      simp [hm]
    · have hk' : k = m := by omega
      subst hk'
      have hnil : (List.range k).flatMap g = [] :=
        List.flatMap_eq_nil_iff.mpr fun x hx =>
          h x (by have := List.mem_range.mp hx; omega)
            (by have := List.mem_range.mp hx; omega)
      simp [hnil]

theorem flatMap_range_nil {α : Type} (g : ℕ → List α) (n : ℕ)
    (h : ∀ i < n, g i = []) : (List.range n).flatMap g = [] :=
  List.flatMap_eq_nil_iff.mpr fun x hx => h x (List.mem_range.mp hx)

theorem flipCoord_inj (flag len : ℕ) {a b : ℕ}
    (h : flipCoord flag len a = flipCoord flag len b) : a = b := by
  unfold flipCoord at h
  split_ifs at h <;> omega

theorem pixelWrites_pos {obj : SpriteObject} {pal : List Color} {flag : Bool}
    {tile : List (List ℕ)} {ty tx py px : ℕ} {w : Write}
    (hw : w ∈ pixelWrites obj pal flag tile ty tx py px) :
    w.1.1 = flipCoord obj.h_flip obj.width (tx * 8 + px) ∧
    w.1.2 = flipCoord obj.v_flip obj.height (ty * 8 + py) := by
  simp only [pixelWrites] at hw
  split_ifs at hw
  · cases hw
  · cases hw
  · rw [List.mem_singleton] at hw
    rw [hw]
    exact ⟨rfl, rfl⟩

theorem cellWrites_pos {td : List ℕ} {obj : SpriteObject} {pal : List Color}
    {mult : ℕ} {flag : Bool} {ty tx : ℕ} {w : Write}
    (hw : w ∈ cellWrites td obj pal mult flag ty tx) :
    ∃ py px, py < 8 ∧ px < 8 ∧
      w.1.1 = flipCoord obj.h_flip obj.width (tx * 8 + px) ∧
      w.1.2 = flipCoord obj.v_flip obj.height (ty * 8 + py) := by
  simp only [cellWrites] at hw
  split_ifs at hw
  · cases hw
  · simp only [List.mem_flatMap, List.mem_range] at hw
    obtain ⟨py, hpy, px, hpx, hw⟩ := hw
    exact ⟨py, px, hpy, hpx, (pixelWrites_pos hw).1, (pixelWrites_pos hw).2⟩

theorem render_sprite_pix (td : List ℕ) (obj : SpriteObject) (pal : List Color)
    (mult : ℕ) (flag : Bool) (ty tx py px : ℕ)
    (hty : ty < obj.height / 8) (htx : tx < obj.width / 8)
    (hpy : py < 8) (hpx : px < 8) :
    (render_sprite td obj pal mult flag).pix
        (flipCoord obj.h_flip obj.width (tx * 8 + px))
        (flipCoord obj.v_flip obj.height (ty * 8 + py)) =
      (if (obj.tile_number * mult + (ty * (obj.width / 8) + tx)) * 32 + 32 > td.length
       then spriteBg flag
       else if ¬flag ∧ ((decode_4bpp_tile ((td.drop ((obj.tile_number * mult + (ty * (obj.width / 8) + tx)) * 32)).take 32)).getD py []).getD px 0 = 0
       then spriteBg flag
       else if pal.length ≤ ((decode_4bpp_tile ((td.drop ((obj.tile_number * mult + (ty * (obj.width / 8) + tx)) * 32)).take 32)).getD py []).getD px 0
       then spriteBg flag
       else withAlpha (pal.getD (((decode_4bpp_tile ((td.drop ((obj.tile_number * mult + (ty * (obj.width / 8) + tx)) * 32)).take 32)).getD py []).getD px 0) (0, 0, 0))) := by
  have hcell : (renderWrites td obj pal mult flag).filter
      (targetsAt (flipCoord obj.h_flip obj.width (tx * 8 + px))
                 (flipCoord obj.v_flip obj.height (ty * 8 + py))) =
      (cellWrites td obj pal mult flag ty tx).filter
      (targetsAt (flipCoord obj.h_flip obj.width (tx * 8 + px))
                 (flipCoord obj.v_flip obj.height (ty * 8 + py))) := by
    rw [renderWrites]
    simp only [List.filter_flatMap]
    rw [flatMap_range_eq_single _ _ ty hty ?_]
    · rw [flatMap_range_eq_single _ _ tx htx ?_]
      intro tx' htx' hne
      rw [List.filter_eq_nil_iff]
      intro w hw
      obtain ⟨py', px', hpy', hpx', hpos1, hpos2⟩ := cellWrites_pos hw
      simp only [targetsAt, decide_eq_true_eq, not_and]
      intro hxeq _
      rw [hpos1] at hxeq
      have := flipCoord_inj obj.h_flip obj.width hxeq.symm
      omega
    · intro ty' hty' hne
      apply flatMap_range_nil
      intro tx' htx'
      rw [List.filter_eq_nil_iff]
      intro w hw
      obtain ⟨py', px', hpy', hpx', hpos1, hpos2⟩ := cellWrites_pos hw
      simp only [targetsAt, decide_eq_true_eq, not_and]
      intro _ hyeq
      rw [hpos2] at hyeq
      have := flipCoord_inj obj.v_flip obj.height hyeq.symm
      omega
  show applyWrites _ _ _ _ = _
  rw [applyWrites_spec, hcell]
  simp only [cellWrites]
  by_cases hrange : (obj.tile_number * mult + (ty * (obj.width / 8) + tx)) * 32 + 32 > td.length
  · rw [if_pos hrange, if_pos hrange]
    rfl
  · rw [if_neg hrange, if_neg hrange]
    have hone : ((List.range 8).flatMap fun py' => (List.range 8).flatMap fun px' =>
        pixelWrites obj pal flag
          (decode_4bpp_tile ((td.drop ((obj.tile_number * mult + (ty * (obj.width / 8) + tx)) * 32)).take 32))
          ty tx py' px').filter
        (targetsAt (flipCoord obj.h_flip obj.width (tx * 8 + px))
                   (flipCoord obj.v_flip obj.height (ty * 8 + py))) =
        (pixelWrites obj pal flag
          (decode_4bpp_tile ((td.drop ((obj.tile_number * mult + (ty * (obj.width / 8) + tx)) * 32)).take 32))
          ty tx py px).filter
        (targetsAt (flipCoord obj.h_flip obj.width (tx * 8 + px))
                   (flipCoord obj.v_flip obj.height (ty * 8 + py))) := by
      simp only [List.filter_flatMap]
      rw [flatMap_range_eq_single _ _ py hpy ?_]
      · rw [flatMap_range_eq_single _ _ px hpx ?_]
        intro px' hpx' hne
        rw [List.filter_eq_nil_iff]
        intro w hw
        have hpos := pixelWrites_pos hw
        simp only [targetsAt, decide_eq_true_eq, not_and]
        intro hxeq _
        rw [hpos.1] at hxeq
        have := flipCoord_inj obj.h_flip obj.width hxeq.symm
        omega
      · intro py' hpy' hne
        apply flatMap_range_nil
        intro px' hpx'
        rw [List.filter_eq_nil_iff]
        intro w hw
        have hpos := pixelWrites_pos hw
        simp only [targetsAt, decide_eq_true_eq, not_and]
        intro _ hyeq
        rw [hpos.2] at hyeq
        have := flipCoord_inj obj.v_flip obj.height hyeq.symm
        omega
    rw [hone]
    simp only [pixelWrites]
    split_ifs with h1 h2
    · rfl
    · rfl
    · simp [targetsAt]

theorem foldl_min_le (t : List ℤ) :
    ∀ (b : ℤ), t.foldl min b ≤ b ∧ ∀ a ∈ t, t.foldl min b ≤ a := by
  induction t with
  | nil => intro b; exact ⟨le_refl b, by simp⟩
  | cons c t' ih =>
    intro b
    simp only [List.foldl_cons]
    refine ⟨(ih (min b c)).1.trans (min_le_left b c), ?_⟩
    intro a ha
    rcases List.mem_cons.mp ha with rfl | ha
    · exact (ih (min b a)).1.trans (min_le_right b a)
    · exact (ih (min b c)).2 a ha

theorem le_foldl_max (t : List ℤ) :
    ∀ (b : ℤ), b ≤ t.foldl max b ∧ ∀ a ∈ t, a ≤ t.foldl max b := by
  induction t with
  | nil => intro b; exact ⟨le_refl b, by simp⟩
  | cons c t' ih =>
    intro b
    simp only [List.foldl_cons]
    refine ⟨(le_max_left b c).trans (ih (max b c)).1, ?_⟩
    intro a ha
    rcases List.mem_cons.mp ha with rfl | ha
    · exact (le_max_right b a).trans (ih (max b a)).1
    · exact (ih (max b c)).2 a ha

theorem minX_le {objs : List SpriteObject} {o : SpriteObject} (h : o ∈ objs) :
    minX objs ≤ o.x := by
  rw [minX]
  cases objs with
  | nil => cases h
  | cons a t =>
    rcases List.mem_cons.mp h with rfl | h
    · exact (foldl_min_le (t.map (·.x)) o.x).1
    · exact (foldl_min_le (t.map (·.x)) a.x).2 o.x (List.mem_map_of_mem _ h)

theorem le_maxX {objs : List SpriteObject} {o : SpriteObject} (h : o ∈ objs) :
    o.x + (o.width : ℤ) ≤ maxX objs := by
  rw [maxX]
  cases objs with
  | nil => cases h
  | cons a t =>
    rcases List.mem_cons.mp h with rfl | h
    · exact (le_foldl_max (t.map fun ob => ob.x + (ob.width : ℤ)) _).1
    · exact (le_foldl_max (t.map fun ob => ob.x + (ob.width : ℤ)) _).2 _
        (List.mem_map_of_mem _ h)

theorem minY_le {objs : List SpriteObject} {o : SpriteObject} (h : o ∈ objs) :
    minY objs ≤ o.y := by
  rw [minY]
  cases objs with
  | nil => cases h
  | cons a t =>
    rcases List.mem_cons.mp h with rfl | h
    · exact (foldl_min_le (t.map (·.y)) o.y).1
    · exact (foldl_min_le (t.map (·.y)) a.y).2 o.y (List.mem_map_of_mem _ h)

theorem le_maxY {objs : List SpriteObject} {o : SpriteObject} (h : o ∈ objs) :
    o.y + (o.height : ℤ) ≤ maxY objs := by
  rw [maxY]
  cases objs with
  | nil => cases h
  | cons a t =>
    rcases List.mem_cons.mp h with rfl | h
    · exact (le_foldl_max (t.map fun ob => ob.y + (ob.height : ℤ)) _).1
    · exact (le_foldl_max (t.map fun ob => ob.y + (ob.height : ℤ)) _).2 _
        (List.mem_map_of_mem _ h)

theorem reconstruct_priority_invariant (td : List ℕ) (objs : List SpriteObject)
    (pals : List (List Color)) (mult : ℕ) (flag : Bool) (q : SpriteObject → ℕ) :
    reconstruct_portrait td (objs.map fun o => { o with priority := q o }) pals mult flag =
    reconstruct_portrait td objs pals mult flag := by
  cases objs with
  | nil => rfl
  | cons o rest =>
    have e1 : (o :: rest).map (fun o => { o with priority := q o }) =
        { o with priority := q o } :: rest.map (fun o => { o with priority := q o }) := rfl
    rw [e1, reconstruct_portrait, reconstruct_portrait, ← e1]
    have hminx : minX ((o :: rest).map fun o => { o with priority := q o }) = minX (o :: rest) := by
      rw [minX, minX, List.map_map]; rfl
    have hmaxx : maxX ((o :: rest).map fun o => { o with priority := q o }) = maxX (o :: rest) := by
      rw [maxX, maxX, List.map_map]; rfl
    have hminy : minY ((o :: rest).map fun o => { o with priority := q o }) = minY (o :: rest) := by
      rw [minY, minY, List.map_map]; rfl
    have hmaxy : maxY ((o :: rest).map fun o => { o with priority := q o }) = maxY (o :: rest) := by
      rw [maxY, maxY, List.map_map]; rfl
    rw [hminx, hmaxx, hminy, hmaxy]
    have hrev : ((o :: rest).map fun o => { o with priority := q o }).reverse =
        (o :: rest).reverse.map fun o => { o with priority := q o } := by
      rw [List.map_reverse]
    rw [hrev, List.foldl_map]
    have hstep : (fun (c : Image) (ob : SpriteObject) =>
        compositeStep td pals mult flag (minX (o :: rest)) (minY (o :: rest)) c
          { ob with priority := q ob }) =
        compositeStep td pals mult flag (minX (o :: rest)) (minY (o :: rest)) := by
      funext c ob
      rfl
    rw [hstep]

theorem pasteWrites_pos {canvas spr : Image} {ox oy : ℤ} {w : Write}
    (hw : w ∈ pasteWrites canvas spr ox oy) :
    ∃ sx sy : ℕ, sx < spr.w ∧ sy < spr.h ∧ w.1.1 = ox + sx ∧ w.1.2 = oy + sy := by
  simp only [pasteWrites, List.mem_flatMap, List.mem_range] at hw
  obtain ⟨y, hy, x, hx, hw⟩ := hw
  split_ifs at hw with hc
  · rw [List.mem_singleton] at hw
    exact ⟨x, y, hx, hy, by rw [hw], by rw [hw]⟩
  · cases hw

theorem paste_pix_opaque (canvas spr : Image) (ox oy : ℤ) (sx sy : ℕ)
    (hsx : sx < spr.w) (hsy : sy < spr.h)
    (hop : (spr.pix sx sy).2.2.2 = 255)
    (hbx0 : 0 ≤ ox + sx) (hbx1 : ox + sx < (canvas.w : ℤ))
    (hby0 : 0 ≤ oy + sy) (hby1 : oy + sy < (canvas.h : ℤ)) :
    (paste canvas spr ox oy).pix (ox + sx) (oy + sy) = spr.pix sx sy := by
  show applyWrites _ _ _ _ = _
  have hfil : (pasteWrites canvas spr ox oy).filter (targetsAt (ox + sx) (oy + sy)) =
      [((ox + (sx : ℤ), oy + (sy : ℤ)), spr.pix sx sy)] := by
    rw [pasteWrites]
    simp only [List.filter_flatMap]
    rw [flatMap_range_eq_single _ _ sy hsy ?_]
    · rw [flatMap_range_eq_single _ _ sx hsx ?_]
      · rw [if_pos ⟨hop, hbx0, hbx1, hby0, hby1⟩]
        simp [targetsAt]
      · intro x' hx' hne
        split_ifs with hc
        · rw [List.filter_eq_nil_iff]
          intro w hw
          rw [List.mem_singleton] at hw
          simp only [targetsAt, decide_eq_true_eq, not_and]
          intro hxeq _
          rw [hw] at hxeq
          simp only at hxeq
          omega
        · rfl
    · intro y' hy' hne
      apply flatMap_range_nil
      intro x' hx'
      split_ifs with hc
      · rw [List.filter_eq_nil_iff]
        intro w hw
        rw [List.mem_singleton] at hw
        simp only [targetsAt, decide_eq_true_eq, not_and]
        intro _ hyeq
        rw [hw] at hyeq
        simp only at hyeq
        omega
      · rfl
  rw [applyWrites_spec, hfil]
  rfl

theorem paste_pix_untouched (canvas spr : Image) (ox oy x y : ℤ)
    (h : ∀ sx : ℕ, sx < spr.w → ∀ sy : ℕ, sy < spr.h → ¬(ox + sx = x ∧ oy + sy = y)) :
    (paste canvas spr ox oy).pix x y = canvas.pix x y := by
  apply applyWrites_of_filter_nil
  rw [List.filter_eq_nil_iff]
  intro w hw
  obtain ⟨sx, sy, hsx, hsy, hx1, hy1⟩ := pasteWrites_pos hw
  simp only [targetsAt, decide_eq_true_eq, not_and]
  intro hxx hyy
  exact h sx hsx sy hsy ⟨by omega, by omega⟩

theorem compositeStep_dims (td : List ℕ) (pals : List (List Color)) (mult : ℕ)
    (flag : Bool) (mx my : ℤ) (c : Image) (o : SpriteObject) :
    (compositeStep td pals mult flag mx my c o).w = c.w ∧
    (compositeStep td pals mult flag mx my c o).h = c.h := by
  rw [compositeStep]
  split_ifs <;> exact ⟨rfl, rfl⟩

theorem foldl_step_dims (td : List ℕ) (pals : List (List Color)) (mult : ℕ)
    (flag : Bool) (mx my : ℤ) :
    ∀ (l : List SpriteObject) (c : Image),
      (l.foldl (compositeStep td pals mult flag mx my) c).w = c.w ∧
      (l.foldl (compositeStep td pals mult flag mx my) c).h = c.h := by
  intro l
  induction l with
  | nil => intro c; exact ⟨rfl, rfl⟩
  | cons o t ih =>
    intro c
    simp only [List.foldl_cons]
    refine ⟨(ih _).1.trans ?_, (ih _).2.trans ?_⟩
    · exact (compositeStep_dims td pals mult flag mx my c o).1
    · exact (compositeStep_dims td pals mult flag mx my c o).2

theorem foldl_step_untouched (td : List ℕ) (pals : List (List Color)) (mult : ℕ)
    (flag : Bool) (mx my : ℤ) (x y : ℤ) :
    ∀ (l : List SpriteObject) (c : Image),
      (∀ ob ∈ l, ob.obj_disable = 0 →
        ∀ sx : ℕ, sx < ob.width → ∀ sy : ℕ, sy < ob.height →
          ¬(ob.x - mx + sx = x ∧ ob.y - my + sy = y)) →
      (l.foldl (compositeStep td pals mult flag mx my) c).pix x y = c.pix x y := by
  intro l
  induction l with
  | nil => intro c _; rfl
  | cons o t ih =>
    intro c h
    simp only [List.foldl_cons]
    rw [ih _ fun ob hob => h ob (List.mem_cons_of_mem _ hob)]
    rw [compositeStep]
    split_ifs with hd
    · rfl
    · exact paste_pix_untouched _ _ _ _ _ _
        (h o (List.mem_cons_self _ _) (by omega))

theorem foldl_step_filter (td : List ℕ) (pals : List (List Color)) (mult : ℕ)
    (flag : Bool) (mx my : ℤ) :
    ∀ (l : List SpriteObject) (c : Image),
      (l.filter fun ob => ob.obj_disable == 0).foldl
        (compositeStep td pals mult flag mx my) c =
      l.foldl (compositeStep td pals mult flag mx my) c := by
  intro l
  induction l with
  | nil => intro c; rfl
  | cons o t ih =>
    intro c
    rw [List.filter_cons]
    by_cases hd : o.obj_disable = 0
    · rw [if_pos (by simp [hd])]
      simp only [List.foldl_cons]
      exact ih _
    · rw [if_neg (by simp [hd])]
      simp only [List.foldl_cons]
      rw [ih c]
      have hskip : compositeStep td pals mult flag mx my c o = c := by
        rw [compositeStep, if_pos (by omega)]
      rw [hskip]

/-! ## Claim theorems -/

/-- C2 counterexample: on the 1-byte buffer `[0]` palette decoding does
not succeed (the trailing `struct.unpack` on a 1-byte slice raises), so
it does not return a palette of length `floor(1/2) = 0` as claimed. -/
theorem claim2_counterexample :
    load_ds_palette [0] = none ∧ ¬∃ p, load_ds_palette [0] = some p ∧ p.length = 0 :=
  ⟨rfl, by simp [load_ds_palette]⟩

/-- C2 (amended): decoding succeeds exactly on even-length buffers,
returning `length / 2` colors; an odd-length buffer makes the final
2-byte read fail (Python `struct.error`), rather than being silently
ignored. -/
theorem claim2_theorem (data : List ℕ) :
    (data.length % 2 = 0 → ∃ p, load_ds_palette data = some p ∧ p.length = data.length / 2) ∧
    (data.length % 2 = 1 → load_ds_palette data = none) :=
  load_pal_parity data

/-- C2 witness: the even-length buffer `[1, 2]` decodes to one color. -/
theorem claim2_witness : ∃ p, load_ds_palette [1, 2] = some p ∧ p.length = 1 :=
  (claim2_theorem [1, 2]).1 rfl

/-- C3: the 5-bit → 8-bit conversion of the palette decoder equals
`floor(c*255/31)` for every component `c ≤ 31`, with `0 ↦ 0`, `16 ↦ 131`
and `31 ↦ 255`. -/
theorem claim3_theorem :
    (∀ c ≤ 31, conv5to8 c = c * 255 / 31) ∧
    conv5to8 0 = 0 ∧ conv5to8 16 = 131 ∧ conv5to8 31 = 255 := by
  refine ⟨fun c _ => conv5to8_eq c, ?_, ?_, ?_⟩ <;> rw [conv5to8_eq]

/-- C3 witness at `c = 16`. -/
theorem claim3_witness : conv5to8 16 = 16 * 255 / 31 :=
  claim3_theorem.1 16 (by norm_num)

/-- C4: coordinate recovery of `parse_oam_attrs` — screen x is the raw
9-bit x minus 512 when it is ≥ 256, screen y the raw 8-bit y minus 256
when it is ≥ 192; raw x 300 ↦ −212, 100 ↦ 100, raw y 200 ↦ −56,
100 ↦ 100. -/
theorem claim4_theorem (attr0 attr1 attr2 : ℕ) :
    ((parse_oam_attrs attr0 attr1 attr2).x =
      if 256 ≤ attr1 &&& 0x1FF then ((attr1 &&& 0x1FF : ℕ) : ℤ) - 512
      else ((attr1 &&& 0x1FF : ℕ) : ℤ)) ∧
    ((parse_oam_attrs attr0 attr1 attr2).y =
      if 192 ≤ attr0 &&& 0xFF then ((attr0 &&& 0xFF : ℕ) : ℤ) - 256
      else ((attr0 &&& 0xFF : ℕ) : ℤ)) ∧
    (parse_oam_attrs 0 300 0).x = -212 ∧ (parse_oam_attrs 0 100 0).x = 100 ∧
    (parse_oam_attrs 200 0 0).y = -56 ∧ (parse_oam_attrs 100 0 0).y = 100 := by
  refine ⟨?_, ?_, by decide, by decide, by decide, by decide⟩ <;>
    · simp only [parse_oam_attrs, wrap_ds_coordinate]
      split_ifs <;> omega

/-- C5: for a 32-byte input, the decoded tile satisfies
`grid[y][x] = pixels[y*8+x]` with the nibble list taking each byte's low
nibble first; every entry is < 16, and byte `0x21` contributes the
values 1 then 2. -/
theorem claim5_theorem (bytes : List ℕ) (h32 : bytes.length = 32) :
    (∀ y < 8, ∀ x < 8,
      ((decode_4bpp_tile bytes).getD y []).getD x 0 = (tilePixels bytes).getD (y * 8 + x) 0 ∧
      ((decode_4bpp_tile bytes).getD y []).getD x 0 < 16) ∧
    tilePixels [0x21] = [1, 2] := by
  refine ⟨fun y hy x hx => ?_, by decide⟩
  have hgrid : ((decode_4bpp_tile bytes).getD y []).getD x 0 =
      (tilePixels bytes).getD (y * 8 + x) 0 := by
    rw [decode_4bpp_tile, getD_map_range _ 8 y hy, getD_map_range _ 8 x hx]
  refine ⟨hgrid, hgrid ▸ ?_⟩
  rcases Nat.lt_or_ge (y * 8 + x) (tilePixels bytes).length with h | h
  · rw [List.getD_eq_getElem _ _ h]
    exact tilePixels_lt bytes _ (List.getElem_mem h)
  · rw [List.getD_eq_default _ _ h]; decide

/-- C5 witness: a concrete 32-byte buffer. -/
theorem claim5_witness :
    ((decode_4bpp_tile (List.replicate 32 0x21)).getD 0 []).getD 1 0 =
      (tilePixels (List.replicate 32 0x21)).getD 1 0 :=
  ((claim5_theorem (List.replicate 32 0x21) (by decide)).1 0 (by decide) 1 (by decide)).1

/-- C6: document parsing fails iff fewer than 10 bytes are available;
with at least 10 bytes it succeeds, truncating each set to the complete
6-byte records available, and every returned object carries its set id
and zero-based index. -/
theorem claim6_theorem (data : List ℕ) :
    ((parse_custom_oam_format data).isSome ↔ 10 ≤ data.length) ∧
    (∀ (h : OamHeader) (s1 s2 : List TaggedObject),
      parse_custom_oam_format data = some (h, s1, s2) →
      s1.length = min h.set1_count ((data.length - 10) / 6) ∧
      (∀ (j : ℕ) (t : TaggedObject), s1[j]? = some t → t.set = 1 ∧ t.index = j) ∧
      (s2.length = if 10 + 6 * s1.length + 2 ≤ data.length
        then min (data.getD (10 + 6 * s1.length) 0 + 256 * data.getD (10 + 6 * s1.length + 1) 0)
                 ((data.length - (10 + 6 * s1.length + 2)) / 6)
        else 0) ∧
      (∀ (j : ℕ) (t : TaggedObject), s2[j]? = some t → t.set = 2 ∧ t.index = j)) := by
  by_cases h10 : 10 ≤ data.length
  · have r0 : read16 data 0 = some (data.getD 0 0 + 256 * data.getD 1 0) := by
      rw [read16, if_pos (by omega)]
    have r2 : read16 data 2 = some (data.getD 2 0 + 256 * data.getD 3 0) := by
      rw [read16, if_pos (by omega)]
    have r4 : read16 data 4 = some (data.getD 4 0 + 256 * data.getD 5 0) := by
      rw [read16, if_pos (by omega)]
    have r6 : read16 data 6 = some (data.getD 6 0 + 256 * data.getD 7 0) := by
      rw [read16, if_pos (by omega)]
    have r8 : read16 data 8 = some (data.getD 8 0 + 256 * data.getD 9 0) := by
      rw [read16, if_pos (by omega)]
    have hform : parse_custom_oam_format data = some
        (⟨data.getD 0 0 + 256 * data.getD 1 0, data.getD 2 0 + 256 * data.getD 3 0,
          data.getD 4 0 + 256 * data.getD 5 0, data.getD 6 0 + 256 * data.getD 7 0,
          data.getD 8 0 + 256 * data.getD 9 0⟩,
         parseRecords data 1 (data.getD 8 0 + 256 * data.getD 9 0) 10 0,
         if 10 + 6 * (parseRecords data 1 (data.getD 8 0 + 256 * data.getD 9 0) 10 0).length + 2 ≤ data.length then
           parseRecords data 2
             (data.getD (10 + 6 * (parseRecords data 1 (data.getD 8 0 + 256 * data.getD 9 0) 10 0).length) 0 +
              256 * data.getD (10 + 6 * (parseRecords data 1 (data.getD 8 0 + 256 * data.getD 9 0) 10 0).length + 1) 0)
             (10 + 6 * (parseRecords data 1 (data.getD 8 0 + 256 * data.getD 9 0) 10 0).length + 2) 0
         else []) := by
      rw [parse_custom_oam_format, r0, r2, r4, r6, r8]
      rfl
    refine ⟨by simp [hform, h10], ?_⟩
    intro h s1 s2 hsome
    rw [hform, Option.some_inj] at hsome
    simp only [Prod.mk.injEq] at hsome
    obtain ⟨hh, hs1, hs2⟩ := hsome
    subst hh hs1 hs2
    refine ⟨by rw [parseRecords_length], ?_, ?_, ?_⟩
    · intro j t ht
      have hr := parseRecords_tags data 1 _ 10 0 j t ht
      exact ⟨hr.1, by omega⟩
    · split_ifs with hc
      · rw [parseRecords_length]
      · rfl
    · split_ifs at * with hc
      · intro j t ht
        have hr := parseRecords_tags data 2 _ _ 0 j t ht
        exact ⟨hr.1, by omega⟩
      · intro j t ht
        simp at ht
  · have r8n : read16 data 8 = none := by rw [read16, if_neg (by omega)]
    have hnone : parse_custom_oam_format data = none := by
      rw [parse_custom_oam_format, r8n]
      cases h0 : read16 data 0
      · rfl
      · cases h2 : read16 data 2
        · rfl
        · cases h4 : read16 data 4
          · rfl
          · cases h6 : read16 data 6
            · rfl
            · rfl
    refine ⟨by simp [hnone, h10], ?_⟩
    intro h s1 s2 hs
    rw [hnone] at hs
    cases hs

/-- C6 witness: the 18-byte document `dataW6` parses to one Set-1 object
tagged `(set, index) = (1, 0)` and an empty Set 2. -/
theorem claim6_witness :
    ([(⟨parse_oam_attrs 5 3 7, 1, 0⟩ : TaggedObject)]).length = min 1 ((dataW6.length - 10) / 6) ∧
    (⟨parse_oam_attrs 5 3 7, 1, 0⟩ : TaggedObject).set = 1 ∧
    (⟨parse_oam_attrs 5 3 7, 1, 0⟩ : TaggedObject).index = 0 := by
  have H := (claim6_theorem dataW6).2 ⟨20, 0, 4, 0, 1⟩
    [⟨parse_oam_attrs 5 3 7, 1, 0⟩] [] (by decide)
  exact ⟨H.1, H.2.1 0 _ rfl⟩

/-- C1: when the enabled objects at indices 0 and 1 both write an opaque
pixel at the same canvas location, the composited pixel equals object 0's
sprite pixel (index 0 is composited last, on top), and the whole composite
is invariant under arbitrary changes of every record's `priority` field. -/
theorem claim1_theorem (td : List ℕ) (o0 o1 : SpriteObject) (rest : List SpriteObject)
    (pals : List (List Color)) (mult : ℕ) (flag : Bool) (q : SpriteObject → ℕ)
    (sx sy t1x t1y : ℕ)
    (h0 : o0.obj_disable = 0) (h1 : o1.obj_disable = 0)
    (hsx : sx < o0.width) (hsy : sy < o0.height)
    (ht1x : t1x < o1.width) (ht1y : t1y < o1.height)
    (hsame : o1.x - minX (o0 :: o1 :: rest) + t1x = o0.x - minX (o0 :: o1 :: rest) + sx ∧
             o1.y - minY (o0 :: o1 :: rest) + t1y = o0.y - minY (o0 :: o1 :: rest) + sy)
    (hop0 : ((render_sprite td o0 (selectPalette pals o0) mult flag).pix sx sy).2.2.2 = 255)
    (hop1 : ((render_sprite td o1 (selectPalette pals o1) mult flag).pix t1x t1y).2.2.2 = 255) :
    (reconstruct_portrait td (o0 :: o1 :: rest) pals mult flag).map
        (fun c => c.pix (o0.x - minX (o0 :: o1 :: rest) + sx)
                        (o0.y - minY (o0 :: o1 :: rest) + sy)) =
      some ((render_sprite td o0 (selectPalette pals o0) mult flag).pix sx sy) ∧
    reconstruct_portrait td ((o0 :: o1 :: rest).map fun o => { o with priority := q o })
        pals mult flag =
      reconstruct_portrait td (o0 :: o1 :: rest) pals mult flag := by
  refine ⟨?_, reconstruct_priority_invariant td (o0 :: o1 :: rest) pals mult flag q⟩
  simp only [reconstruct_portrait, Option.map_some']
  have hrev : (o0 :: o1 :: rest).reverse = (o1 :: rest).reverse ++ [o0] :=
    List.reverse_cons ..
  rw [hrev, List.foldl_append]
  simp only [List.foldl_cons, List.foldl_nil]
  rw [compositeStep, if_neg (by omega : ¬o0.obj_disable ≠ 0)]
  have hmem : o0 ∈ o0 :: o1 :: rest := List.mem_cons_self _ _
  have hminx := minX_le hmem
  have hmaxx := le_maxX hmem
  have hminy := minY_le hmem
  have hmaxy := le_maxY hmem
  have hdims := foldl_step_dims td pals mult flag (minX (o0 :: o1 :: rest))
    (minY (o0 :: o1 :: rest)) ((o1 :: rest).reverse)
    (mkImage (maxX (o0 :: o1 :: rest) - minX (o0 :: o1 :: rest)).toNat
             (maxY (o0 :: o1 :: rest) - minY (o0 :: o1 :: rest)).toNat (0, 0, 0, 0))
  apply congrArg some
  refine paste_pix_opaque _ _ _ _ sx sy hsx hsy hop0 ?_ ?_ ?_ ?_
  · omega
  · rw [hdims.1]
    simp only [mkImage]
    omega
  · omega
  · rw [hdims.2]
    simp only [mkImage]
    omega

/-- C1 witness: two identical overlapping 8×8 objects differing only in
`priority`; the composite at the overlap shows object 0's pixel, and a
global priority rewrite leaves the composite unchanged. -/
theorem claim1_witness :
    ((reconstruct_portrait tdW (objW1a :: objW1b :: []) palsW 1 false).map
        (fun c => c.pix (objW1a.x - minX (objW1a :: objW1b :: []) + (0 : ℕ))
                        (objW1a.y - minY (objW1a :: objW1b :: []) + (0 : ℕ))) =
      some ((render_sprite tdW objW1a (selectPalette palsW objW1a) 1 false).pix 0 0)) ∧
    reconstruct_portrait tdW ((objW1a :: objW1b :: []).map fun o => { o with priority := 7 })
        palsW 1 false =
      reconstruct_portrait tdW (objW1a :: objW1b :: []) palsW 1 false :=
  claim1_theorem tdW objW1a objW1b [] palsW 1 false (fun _ => 7) 0 0 0 0
    (by decide) (by decide) (by decide) (by decide) (by decide) (by decide)
    ⟨by decide, by decide⟩ (by decide) (by decide)

/-- C7: a tile cell whose byte offset plus 32 overruns the tile buffer is
left fully transparent, while any in-range cell of the same object is
decoded normally from its sequential source tile index. -/
theorem claim7_theorem (tile_data : List ℕ) (obj : SpriteObject) (palette : List Color)
    (tile_multiplier : ℕ) (ty tx py px : ℕ)
    (hty : ty < obj.height / 8) (htx : tx < obj.width / 8) (hpy : py < 8) (hpx : px < 8) :
    ((obj.tile_number * tile_multiplier + (ty * (obj.width / 8) + tx)) * 32 + 32 > tile_data.length →
      (render_sprite tile_data obj palette tile_multiplier false).pix
        (flipCoord obj.h_flip obj.width (tx * 8 + px))
        (flipCoord obj.v_flip obj.height (ty * 8 + py)) = (0, 0, 0, 0)) ∧
    ((obj.tile_number * tile_multiplier + (ty * (obj.width / 8) + tx)) * 32 + 32 ≤ tile_data.length →
      (render_sprite tile_data obj palette tile_multiplier false).pix
        (flipCoord obj.h_flip obj.width (tx * 8 + px))
        (flipCoord obj.v_flip obj.height (ty * 8 + py)) =
      (if ((decode_4bpp_tile ((tile_data.drop ((obj.tile_number * tile_multiplier + (ty * (obj.width / 8) + tx)) * 32)).take 32)).getD py []).getD px 0 = 0
       then (0, 0, 0, 0)
       else if palette.length ≤ ((decode_4bpp_tile ((tile_data.drop ((obj.tile_number * tile_multiplier + (ty * (obj.width / 8) + tx)) * 32)).take 32)).getD py []).getD px 0
       then (0, 0, 0, 0)
       else withAlpha (palette.getD (((decode_4bpp_tile ((tile_data.drop ((obj.tile_number * tile_multiplier + (ty * (obj.width / 8) + tx)) * 32)).take 32)).getD py []).getD px 0) (0, 0, 0)))) := by
  have H := render_sprite_pix tile_data obj palette tile_multiplier false ty tx py px
    hty htx hpy hpx
  constructor
  · intro h
    rw [H, if_pos h]
    rfl
  · intro h
    rw [H, if_neg (by omega)]
    simp only [Bool.false_eq_true, not_false_eq_true, true_and, spriteBg, if_false]

/-- C7 witness: a 16×8 object over a 32-byte tile buffer — the second
cell is out of range and transparent, the first cell is decoded
normally. -/
theorem claim7_witness :
    (render_sprite tdW objW7 palW 1 false).pix 8 0 = (0, 0, 0, 0) ∧
    (render_sprite tdW objW7 palW 1 false).pix 0 0 = (10, 20, 30, 255) := by
  constructor
  · exact (claim7_theorem tdW objW7 palW 1 0 1 0 0
      (by decide) (by decide) (by decide) (by decide)).1 (by decide)
  · have h := (claim7_theorem tdW objW7 palW 1 0 0 0 0
      (by decide) (by decide) (by decide) (by decide)).2 (by decide)
    exact h.trans (by decide)

/-- C8: a disabled object contributes no pixel writes — the composite
equals the same fold over only the enabled objects — while the
bounding box (canvas size and paste offsets) is computed from all
objects, disabled ones included. -/
theorem claim8_theorem (td : List ℕ) (o : SpriteObject) (rest : List SpriteObject)
    (pals : List (List Color)) (mult : ℕ) (flag : Bool) :
    reconstruct_portrait td (o :: rest) pals mult flag =
      some ((((o :: rest).filter fun ob => ob.obj_disable == 0).reverse).foldl
        (compositeStep td pals mult flag (minX (o :: rest)) (minY (o :: rest)))
        (mkImage (maxX (o :: rest) - minX (o :: rest)).toNat
                 (maxY (o :: rest) - minY (o :: rest)).toNat (0, 0, 0, 0))) := by
  simp only [reconstruct_portrait]
  congr 1
  rw [← List.filter_reverse]
  exact (foldl_step_filter td pals mult flag _ _ _ _).symm

/-- C9 counterexample: with debug mode (`show_transparent`) on and the
loaded (nonempty) palette list, a canvas pixel covered by no enabled
object is fully transparent `(0,0,0,0)`, not opaque white — the
compositor's canvas is always transparent-initialized (line 336), only
the per-sprite raster is white in debug mode. -/
theorem claim9_counterexample :
    (reconstruct_portrait [] [objW1a, objW9] palsW 1 true).map (fun c => c.pix 50 50) =
      some (0, 0, 0, 0) ∧
    (reconstruct_portrait [] [objW1a, objW9] palsW 1 true).map (fun c => c.pix 50 50) ≠
      some (255, 255, 255, 255) := by
  constructor
  · decide
  · decide

/-- C9 (amended): the compositor's canvas is initialized fully
transparent regardless of the debug mode; for every debug flag value, a
canvas pixel covered by no enabled object's paste rectangle reads
`(0,0,0,0)`.  (The opaque-white background belongs to the sprite
renderer's per-object raster when `show_transparent` is on, not to the
compositor's canvas.) -/
theorem claim9_theorem (td : List ℕ) (o : SpriteObject) (rest : List SpriteObject)
    (pals : List (List Color)) (mult : ℕ) (flag : Bool) (x y : ℤ)
    (h : ∀ ob ∈ o :: rest, ob.obj_disable = 0 →
      ∀ sx : ℕ, sx < ob.width → ∀ sy : ℕ, sy < ob.height →
        ¬(ob.x - minX (o :: rest) + sx = x ∧ ob.y - minY (o :: rest) + sy = y)) :
    (reconstruct_portrait td (o :: rest) pals mult flag).map (fun c => c.pix x y) =
      some (0, 0, 0, 0) := by
  simp only [reconstruct_portrait, Option.map_some']
  rw [foldl_step_untouched td pals mult flag (minX (o :: rest)) (minY (o :: rest)) x y
    ((o :: rest).reverse) _ (fun ob hob => h ob (List.mem_reverse.mp hob))]
  rfl

/-- C9 witness: the amended background property at a concrete input with
debug mode on and a nonempty palettes list. -/
theorem claim9_witness :
    (reconstruct_portrait [] (objW1a :: objW9 :: []) palsW 1 true).map (fun c => c.pix 50 50) =
      some (0, 0, 0, 0) :=
  claim9_theorem [] objW1a [objW9] palsW 1 true 50 50 (by decide)

/-- C10: the compositor needs a nonempty object sequence — on the empty
sequence the bounding-box `min()` raises (modelled as `none`) before any
canvas exists. -/
theorem claim10_theorem (tile_data : List ℕ) (palettes : List (List Color))
    (tile_multiplier : ℕ) (show_transparent : Bool) :
    reconstruct_portrait tile_data [] palettes tile_multiplier show_transparent = none :=
  rfl

end HMDS
